import Mathlib

/-!
Verification of the lockstep networking core of project-pong
(src/clients/web/src/lockstep.ts), together with a spec-modelled
simulation engine (the Rust core crate is not part of the source tree).

Bytes are modelled as `Fin 256`; byte buffers as `List Byte`.
JS `DataView` writes are modelled with explicit `% 256` / `% 2^32`
arithmetic; `getInt8` reads a byte back as a signed two's-complement
value.  `WireMsg.decode`, which throws in the source, returns
`Except String` here.
-/

namespace Pong

abbrev Byte := Fin 256

/-- JS `setUint8` semantics: a number is stored modulo 256. -/
def byteOfNat (n : Nat) : Byte := ⟨n % 256, Nat.mod_lt n (by decide)⟩

/-- JS `setInt8` semantics: the integer is stored as its low 8 bits. -/
def byteOfInt (i : Int) : Byte := byteOfNat (i % 256).toNat

/-- JS `getInt8` semantics: read a byte as a signed two's-complement value. -/
def toInt8 (b : Byte) : Int := if 128 ≤ b.val then (b.val : Int) - 256 else (b.val : Int)

/-- JS `setUint32(..., true)` semantics: four little-endian bytes of `n % 2^32`. -/
def encodeU32 (n : Nat) : List Byte :=
  [byteOfNat n, byteOfNat (n / 2 ^ 8), byteOfNat (n / 2 ^ 16), byteOfNat (n / 2 ^ 24)]

/-- JS `getUint32(..., true)` semantics: reassemble four little-endian bytes. -/
def decodeU32 (b0 b1 b2 b3 : Byte) : Nat :=
  b0.val + 2 ^ 8 * b1.val + 2 ^ 16 * b2.val + 2 ^ 24 * b3.val

/-- One side's sampled control for one tick (src/clients/web/src: `Input`). -/
structure Input where
  axis_y : Int
  buttons : Nat
deriving DecidableEq

/-- The tick number plus both sides' inputs (`InputPair`). -/
structure InputPair where
  tick : Nat
  a : Input
  b : Input
deriving DecidableEq

/-- lockstep.ts `Side` enum. -/
inductive Side where
  | Left
  | Right
deriving DecidableEq

/-- Result of `WireMsg.decode`: one of the three wire message kinds. -/
inductive Msg where
  | input_pair (p : InputPair)
  | snapshot (data : List Byte)
  | ping (timestamp : Nat)
deriving DecidableEq

namespace WireMsg

/-- lockstep.ts `WireMsg.encodeInputPair`: tag 0x01, u32le tick, then
a.axis : i8, a.buttons : u8, b.axis : i8, b.buttons : u8 (9 bytes). -/
def encodeInputPair (p : InputPair) : List Byte :=
  byteOfNat 1 :: (encodeU32 p.tick ++
    [byteOfInt p.a.axis_y, byteOfNat p.a.buttons, byteOfInt p.b.axis_y, byteOfNat p.b.buttons])

/-- lockstep.ts `WireMsg.encodeSnapshot`: tag 0x02 followed by the raw payload. -/
def encodeSnapshot (snapshotBytes : List Byte) : List Byte :=
  byteOfNat 2 :: snapshotBytes

/-- lockstep.ts `WireMsg.encodePing`: tag 0x03 followed by a u32le timestamp. -/
def encodePing (timestamp : Nat) : List Byte :=
  byteOfNat 3 :: encodeU32 timestamp

/-- lockstep.ts `WireMsg.decode`.  The source throws `Error` on an empty
buffer, a wrong length for tags 0x01/0x03, or an unknown tag; here those
become `Except.error`.  A length check `bytes.length === 9` corresponds to
a pattern of exactly eight bytes after the tag. -/
def decode (bytes : List Byte) : Except String Msg :=
  match bytes with
  | [] => .error "Empty message"
  | b0 :: rest =>
    if b0.val = 1 then
      match rest with
      | [t0, t1, t2, t3, aa, ab, ba, bb] =>
        .ok (.input_pair
          { tick := decodeU32 t0 t1 t2 t3
            a := { axis_y := toInt8 aa, buttons := ab.val }
            b := { axis_y := toInt8 ba, buttons := bb.val } })
      | _ => .error "Invalid InputPair message length"
    else if b0.val = 2 then
      .ok (.snapshot rest)
    else if b0.val = 3 then
      match rest with
      | [t0, t1, t2, t3] => .ok (.ping (decodeU32 t0 t1 t2 t3))
      | _ => .error "Invalid Ping message length"
    else
      .error "Unknown message type"

end WireMsg

lemma byteOfNat_val (n : Nat) : (byteOfNat n).val = n % 256 := rfl

lemma byteOfNat_val_of_lt {n : Nat} (h : n < 256) : (byteOfNat n).val = n := by
  simp [byteOfNat_val, Nat.mod_eq_of_lt h]

lemma toInt8_byteOfInt {i : Int} (h1 : -128 ≤ i) (h2 : i ≤ 127) :
    toInt8 (byteOfInt i) = i := by
  have hlo : (0 : Int) ≤ i % 256 := Int.emod_nonneg i (by decide)
  have hhi : i % 256 < 256 := Int.emod_lt_of_pos i (by decide)
  have hval : (byteOfInt i).val = (i % 256).toNat := by
    simp [byteOfInt, byteOfNat_val]
    omega
  rw [toInt8, hval]
  split <;> omega

lemma decodeU32_encodeU32 {n : Nat} (h : n < 2 ^ 32) :
    decodeU32 (byteOfNat n) (byteOfNat (n / 2 ^ 8)) (byteOfNat (n / 2 ^ 16))
      (byteOfNat (n / 2 ^ 24)) = n := by
  simp only [decodeU32, byteOfNat_val]
  omega

/-- Well-formedness of a wire buffer in the words of the spec: nonempty,
a known first byte, and exact length 9 for tag 0x01 / 5 for tag 0x03
(tag 0x02 carries a variable-length payload). -/
def decodeWellFormed (bytes : List Byte) : Bool :=
  match bytes with
  | [] => false
  | b0 :: _ =>
    if b0.val = 1 then bytes.length = 9
    else if b0.val = 2 then true
    else if b0.val = 3 then bytes.length = 5
    else false

/-- Association list modelling a JS `Map<number, Input>`: `set` replaces
an existing key in place, otherwise appends. -/
def mapSet (m : List (Nat × Input)) (k : Nat) (v : Input) : List (Nat × Input) :=
  match m with
  | [] => [(k, v)]
  | (k', v') :: rest => if k' = k then (k, v) :: rest else (k', v') :: mapSet rest k v

/-- JS `Map.get`: the value at a key, if present. -/
def mapGet (m : List (Nat × Input)) (k : Nat) : Option Input :=
  match m with
  | [] => none
  | (k', v') :: rest => if k' = k then some v' else mapGet rest k

/-- JS `Map.delete`: remove the entry at a key, if present. -/
def mapDelete (m : List (Nat × Input)) (k : Nat) : List (Nat × Input) :=
  match m with
  | [] => []
  | (k', v') :: rest => if k' = k then rest else (k', v') :: mapDelete rest k

/-- The `CoreAdapter` interface of lockstep.ts, over an abstract core
state type: `step` returns the updated core and an optional event JSON
string, `viewJson` the view projection, and snapshot/restore move raw
bytes.  (`WasmGameAdapter` is one implementation, backed by the WASM
simulation.) -/
structure CoreOps (σ : Type) where
  step : σ → Nat → Int → Nat → Int → Nat → σ × Option String
  viewJson : σ → String
  snapshotBytes : σ → List Byte
  restoreBytes : σ → List Byte → σ
  getCurrentTick : σ → Nat

/-- lockstep.ts `LockstepEvent` (only the constructors the engine emits
carry data it actually produces). -/
inductive LockstepEvent where
  | game_advanced (tick : Nat) (events : List String)
  | snapshot_received (tick : Nat)
  | peer_disconnected
  | pong_received (roundTripMs : Nat)
deriving DecidableEq

/-- The mutable fields of a lockstep.ts `Lockstep` instance, over an
abstract core state `σ`. -/
structure Lockstep (σ : Type) where
  core : σ
  currentTick : Nat
  localSide : Side
  isRunning : Bool
  localInputBuffer : List (Nat × Input)
  remoteInputBuffer : List (Nat × Input)

/-- lockstep.ts `Lockstep.onLocalInput`: throws when not running;
otherwise records the input at the current tick cursor (JS `Map.set`,
which overwrites) and sends an InputPair with a zero placeholder on the
remote side.  Sent wire buffers are returned as a list. -/
def Lockstep.onLocalInput {σ : Type} (ls : Lockstep σ) (axisY : Int) (buttons : Nat) :
    Except String (Lockstep σ × List (List Byte)) :=
  if ls.isRunning = false then .error "Lockstep not running"
  else
    let input : Input := { axis_y := axisY, buttons := buttons }
    let remoteInput : Input := { axis_y := 0, buttons := 0 }
    let inputPair : InputPair :=
      { tick := ls.currentTick
        a := if ls.localSide = .Left then input else remoteInput
        b := if ls.localSide = .Left then remoteInput else input }
    .ok ({ ls with localInputBuffer := mapSet ls.localInputBuffer ls.currentTick input },
      [WireMsg.encodeInputPair inputPair])

/-- lockstep.ts `Lockstep.onNetMessage`: ignores everything when not
running; on a decode error discards the message (the source catches the
throw, logs, and returns `[]`); otherwise routes the message.  Returns
the new state, the produced events, and the sent wire buffers. -/
def Lockstep.onNetMessage {σ : Type} (C : CoreOps σ) (ls : Lockstep σ) (bytes : List Byte) :
    Lockstep σ × List LockstepEvent × List (List Byte) :=
  if ls.isRunning = false then (ls, [], [])
  else
    match WireMsg.decode bytes with
    | .error _ => (ls, [], [])
    | .ok (.input_pair p) =>
      let remoteInput := if ls.localSide = .Left then p.b else p.a
      ({ ls with remoteInputBuffer := mapSet ls.remoteInputBuffer p.tick remoteInput }, [], [])
    | .ok (.snapshot data) =>
      let core' := C.restoreBytes ls.core data
      let t := C.getCurrentTick core'
      ({ ls with core := core', currentTick := t }, [.snapshot_received t], [])
    | .ok (.ping ts) => (ls, [], [WireMsg.encodePing ts])

/-- lockstep.ts `Lockstep.tick`: when running and both input buffers
hold an entry for the current tick, step the core with the pair ordered
by side, delete both entries, advance the cursor, and emit a
`game_advanced` event if the core produced one; always return the
latest view (the `viewJson` of the resulting core). -/
def Lockstep.tick {σ : Type} (C : CoreOps σ) (ls : Lockstep σ) :
    Lockstep σ × String × List LockstepEvent :=
  if ls.isRunning = false then (ls, C.viewJson ls.core, [])
  else
    match mapGet ls.localInputBuffer ls.currentTick,
          mapGet ls.remoteInputBuffer ls.currentTick with
    | some localInput, some remoteInput =>
      let aInput := if ls.localSide = .Left then localInput else remoteInput
      let bInput := if ls.localSide = .Left then remoteInput else localInput
      let stepped := C.step ls.core ls.currentTick aInput.axis_y aInput.buttons
        bInput.axis_y bInput.buttons
      let ls' : Lockstep σ :=
        { ls with core := stepped.1
                  localInputBuffer := mapDelete ls.localInputBuffer ls.currentTick
                  remoteInputBuffer := mapDelete ls.remoteInputBuffer ls.currentTick
                  currentTick := ls.currentTick + 1 }
      let events := match stepped.2 with
        | some e => [LockstepEvent.game_advanced (ls'.currentTick - 1) [e]]
        | none => []
      (ls', C.viewJson ls'.core, events)
    | _, _ => (ls, C.viewJson ls.core, [])

/-- The guard of the advance branch of `Lockstep.tick`, as a Boolean:
running, and both buffers hold an entry for the current tick. -/
def Lockstep.willAdvance {σ : Type} (ls : Lockstep σ) : Bool :=
  ls.isRunning && (mapGet ls.localInputBuffer ls.currentTick).isSome &&
    (mapGet ls.remoteInputBuffer ls.currentTick).isSome

/-- Iterate `Lockstep.tick` and record the tick numbers at which the
simulation was stepped (the cursor value of each advancing call). -/
def Lockstep.driveN {σ : Type} (C : CoreOps σ) : Lockstep σ → Nat → Lockstep σ × List Nat
  | ls, 0 => (ls, [])
  | ls, n + 1 =>
    let rest := Lockstep.driveN C (Lockstep.tick C ls).1 n
    (rest.1, (if Lockstep.willAdvance ls then [ls.currentTick] else []) ++ rest.2)

lemma mapGet_mapSet_self (m : List (Nat × Input)) (k : Nat) (v : Input) :
    mapGet (mapSet m k v) k = some v := by
  induction m with
  | nil => simp [mapSet, mapGet]
  | cons hd tl ih =>
    obtain ⟨k', v'⟩ := hd
    by_cases h : k' = k
    · simp [mapSet, mapGet, h]
    · simp [mapSet, mapGet, h, ih]

lemma mapGet_mapSet_ne (m : List (Nat × Input)) (k : Nat) (v : Input) {t : Nat}
    (h : t ≠ k) : mapGet (mapSet m k v) t = mapGet m t := by
  have hkt : ¬(k = t) := fun hh => h hh.symm
  induction m with
  | nil => simp [mapSet, mapGet, hkt]
  | cons hd tl ih =>
    obtain ⟨k', v'⟩ := hd
    by_cases hk : k' = k
    · subst hk
      simp [mapSet, mapGet, hkt]
    · simp [mapSet, mapGet, hk, ih]

lemma mapGet_mapDelete_ne (m : List (Nat × Input)) (k : Nat) {t : Nat}
    (h : t ≠ k) : mapGet (mapDelete m k) t = mapGet m t := by
  have hkt : ¬(k = t) := fun hh => h hh.symm
  induction m with
  | nil => simp [mapDelete]
  | cons hd tl ih =>
    obtain ⟨k', v'⟩ := hd
    by_cases hk : k' = k
    · subst hk
      simp [mapDelete, mapGet, hkt]
    · simp [mapDelete, mapGet, hk, ih]

lemma mapGet_eq_none_of_not_mem {m : List (Nat × Input)} {k : Nat}
    (h : k ∉ m.map Prod.fst) : mapGet m k = none := by
  induction m with
  | nil => rfl
  | cons hd tl ih =>
    obtain ⟨k', v'⟩ := hd
    simp only [List.map_cons, List.mem_cons] at h
    push_neg at h
    simp [mapGet, Ne.symm h.1, ih h.2]

lemma mapGet_mapDelete_self {m : List (Nat × Input)} (k : Nat)
    (h : (m.map Prod.fst).Nodup) : mapGet (mapDelete m k) k = none := by
  induction m with
  | nil => rfl
  | cons hd tl ih =>
    obtain ⟨k', v'⟩ := hd
    simp only [List.map_cons, List.nodup_cons] at h
    by_cases hk : k' = k
    · subst hk
      simpa [mapDelete] using mapGet_eq_none_of_not_mem h.1
    · simp [mapDelete, mapGet, hk, ih h.2]

lemma tick_advances {σ : Type} (C : CoreOps σ) (ls : Lockstep σ) (li ri : Input)
    (hrun : ls.isRunning = true)
    (hl : mapGet ls.localInputBuffer ls.currentTick = some li)
    (hr : mapGet ls.remoteInputBuffer ls.currentTick = some ri) :
    (Lockstep.tick C ls).1.currentTick = ls.currentTick + 1 ∧
    (Lockstep.tick C ls).1.isRunning = true ∧
    (Lockstep.tick C ls).1.localSide = ls.localSide ∧
    (Lockstep.tick C ls).1.localInputBuffer = mapDelete ls.localInputBuffer ls.currentTick ∧
    (Lockstep.tick C ls).1.remoteInputBuffer = mapDelete ls.remoteInputBuffer ls.currentTick ∧
    (Lockstep.tick C ls).1.core =
      (C.step ls.core ls.currentTick
        (if ls.localSide = .Left then li else ri).axis_y
        (if ls.localSide = .Left then li else ri).buttons
        (if ls.localSide = .Left then ri else li).axis_y
        (if ls.localSide = .Left then ri else li).buttons).1 := by
  simp [Lockstep.tick, hrun, hl, hr]

lemma tick_no_advance {σ : Type} (C : CoreOps σ) (ls : Lockstep σ)
    (h : ¬((ls.isRunning = true) ∧
      (mapGet ls.localInputBuffer ls.currentTick).isSome = true ∧
      (mapGet ls.remoteInputBuffer ls.currentTick).isSome = true)) :
    (Lockstep.tick C ls).1 = ls := by
  rcases hrun : ls.isRunning with _ | _
  · simp [Lockstep.tick, hrun]
  · rcases hl : mapGet ls.localInputBuffer ls.currentTick with _ | li
    · simp [Lockstep.tick, hrun, hl]
    · rcases hr : mapGet ls.remoteInputBuffer ls.currentTick with _ | ri
      · simp [Lockstep.tick, hrun, hl, hr]
      · exact absurd ⟨hrun, by simp [hl], by simp [hr]⟩ h

/-- Claim C1: a `tick` call advances the cursor only when both input
buffers hold an entry for the current tick; in that case (while
running) the cursor advances by exactly one, both entries for that tick
are removed, and the core is stepped once with that tick; the returned
view is always the view of the resulting core.  (In a reachable state
the buffers' keys are distinct — entries are created by `Map.set` — so
key-distinctness is a hypothesis.) -/
theorem tick_lockstep_spec {σ : Type} (C : CoreOps σ) (ls : Lockstep σ)
    (hlw : (ls.localInputBuffer.map Prod.fst).Nodup)
    (hrw : (ls.remoteInputBuffer.map Prod.fst).Nodup) :
    ((Lockstep.tick C ls).2.1 = C.viewJson (Lockstep.tick C ls).1.core) ∧
    ((Lockstep.tick C ls).1.currentTick ≠ ls.currentTick →
      (mapGet ls.localInputBuffer ls.currentTick).isSome = true ∧
      (mapGet ls.remoteInputBuffer ls.currentTick).isSome = true) ∧
    (∀ li ri, ls.isRunning = true →
      mapGet ls.localInputBuffer ls.currentTick = some li →
      mapGet ls.remoteInputBuffer ls.currentTick = some ri →
      (Lockstep.tick C ls).1.currentTick = ls.currentTick + 1 ∧
      mapGet (Lockstep.tick C ls).1.localInputBuffer ls.currentTick = none ∧
      mapGet (Lockstep.tick C ls).1.remoteInputBuffer ls.currentTick = none ∧
      (Lockstep.tick C ls).1.core =
        (C.step ls.core ls.currentTick
          (if ls.localSide = .Left then li else ri).axis_y
          (if ls.localSide = .Left then li else ri).buttons
          (if ls.localSide = .Left then ri else li).axis_y
          (if ls.localSide = .Left then ri else li).buttons).1) ∧
    ((Lockstep.tick C ls).1.currentTick = ls.currentTick ∨
      (Lockstep.tick C ls).1.currentTick = ls.currentTick + 1) := by
  refine ⟨?_, ?_, ?_, ?_⟩
  · rcases hrun : ls.isRunning with _ | _
    · simp [Lockstep.tick, hrun]
    · rcases hl : mapGet ls.localInputBuffer ls.currentTick with _ | li
      · simp [Lockstep.tick, hrun, hl]
      · rcases hr : mapGet ls.remoteInputBuffer ls.currentTick with _ | ri
        · simp [Lockstep.tick, hrun, hl, hr]
        · simp [Lockstep.tick, hrun, hl, hr]
  · intro hne
    by_cases hadv : (ls.isRunning = true) ∧
        (mapGet ls.localInputBuffer ls.currentTick).isSome = true ∧
        (mapGet ls.remoteInputBuffer ls.currentTick).isSome = true
    · exact hadv.2
    · exact absurd (congrArg Lockstep.currentTick (tick_no_advance C ls hadv)) hne
  · intro li ri hrun hl hr
    obtain ⟨h1, _, _, h4, h5, h6⟩ := tick_advances C ls li ri hrun hl hr
    refine ⟨h1, ?_, ?_, h6⟩
    · rw [h4]
      exact mapGet_mapDelete_self ls.currentTick hlw
    · rw [h5]
      exact mapGet_mapDelete_self ls.currentTick hrw
  · by_cases hadv : (ls.isRunning = true) ∧
        (mapGet ls.localInputBuffer ls.currentTick).isSome = true ∧
        (mapGet ls.remoteInputBuffer ls.currentTick).isSome = true
    · obtain ⟨hrun, hl, hr⟩ := hadv
      obtain ⟨li, hli⟩ := Option.isSome_iff_exists.mp hl
      obtain ⟨ri, hri⟩ := Option.isSome_iff_exists.mp hr
      exact Or.inr (tick_advances C ls li ri hrun hli hri).1
    · exact Or.inl (congrArg Lockstep.currentTick (tick_no_advance C ls hadv))

/-- A concrete `CoreOps` instance over `Nat` core states, used to
instantiate the lockstep theorems at concrete inputs. -/
def natCore : CoreOps Nat :=
  { step := fun s t _ _ _ _ => (s + t + 1, none)
    viewJson := fun s => toString s
    snapshotBytes := fun s => [byteOfNat s]
    restoreBytes := fun _ bs => bs.length
    getCurrentTick := fun s => s }

/-- A concrete running lockstep state with one buffered input per side
for tick 0. -/
def exState : Lockstep Nat :=
  { core := 0, currentTick := 0, localSide := .Left, isRunning := true
    localInputBuffer := [(0, { axis_y := 1, buttons := 0 })]
    remoteInputBuffer := [(0, { axis_y := 2, buttons := 0 })] }

/-- Witness for C1: on `exState` the advance case of the theorem fires
and yields cursor 1. -/
theorem tick_lockstep_spec_witness :
    (Lockstep.tick natCore exState).1.currentTick = exState.currentTick + 1 := by
  have h := tick_lockstep_spec natCore exState (by decide) (by decide)
  exact (h.2.2.1 { axis_y := 1, buttons := 0 } { axis_y := 2, buttons := 0 }
    (by decide) (by decide) (by decide)).1

/-- Claim C3: the wire codec is symmetric.  For every `InputPair` whose
tick fits in a u32, whose axis values lie in [-127,127] and whose button
bytes lie in [0,255], decoding the encoding returns the same pair; the
same round trip holds for any u32 ping timestamp and any snapshot
payload byte sequence. -/
theorem codec_round_trip (p : InputPair) (t : Nat) (s : List Byte)
    (htick : p.tick < 2 ^ 32)
    (ha1 : -127 ≤ p.a.axis_y) (ha2 : p.a.axis_y ≤ 127)
    (hb1 : -127 ≤ p.b.axis_y) (hb2 : p.b.axis_y ≤ 127)
    (hab : p.a.buttons ≤ 255) (hbb : p.b.buttons ≤ 255)
    (ht : t < 2 ^ 32) :
    WireMsg.decode (WireMsg.encodeInputPair p) = .ok (.input_pair p) ∧
    WireMsg.decode (WireMsg.encodePing t) = .ok (.ping t) ∧
    WireMsg.decode (WireMsg.encodeSnapshot s) = .ok (.snapshot s) := by
  obtain ⟨tick, ⟨aAxis, aBtn⟩, ⟨bAxis, bBtn⟩⟩ := p
  simp only at htick ha1 ha2 hb1 hb2 hab hbb
  have e1 := decodeU32_encodeU32 htick
  have e2 : toInt8 (byteOfInt aAxis) = aAxis := toInt8_byteOfInt (by omega) ha2
  have e3 : (byteOfNat aBtn).val = aBtn := byteOfNat_val_of_lt (by omega)
  have e4 : toInt8 (byteOfInt bAxis) = bAxis := toInt8_byteOfInt (by omega) hb2
  have e5 : (byteOfNat bBtn).val = bBtn := byteOfNat_val_of_lt (by omega)
  refine ⟨?_, ?_, ?_⟩
  · simp [WireMsg.encodeInputPair, WireMsg.decode, encodeU32, byteOfNat_val,
      decodeU32, e2, e4]
    omega
  · simp [WireMsg.encodePing, WireMsg.decode, encodeU32, byteOfNat_val, decodeU32]
    omega
  · simp [WireMsg.encodeSnapshot, WireMsg.decode, byteOfNat_val]

/-- Witness for C3 at a concrete input pair, timestamp and payload. -/
theorem codec_round_trip_witness :
    WireMsg.decode (WireMsg.encodeInputPair
        { tick := 70000, a := { axis_y := -3, buttons := 1 }, b := { axis_y := 127, buttons := 255 } }) =
      .ok (.input_pair
        { tick := 70000, a := { axis_y := -3, buttons := 1 }, b := { axis_y := 127, buttons := 255 } }) ∧
    WireMsg.decode (WireMsg.encodePing 123456789) = .ok (.ping 123456789) ∧
    WireMsg.decode (WireMsg.encodeSnapshot [byteOfNat 7, byteOfNat 9]) =
      .ok (.snapshot [byteOfNat 7, byteOfNat 9]) :=
  codec_round_trip
    { tick := 70000, a := { axis_y := -3, buttons := 1 }, b := { axis_y := 127, buttons := 255 } }
    123456789 [byteOfNat 7, byteOfNat 9]
    (by decide) (by decide) (by decide) (by decide) (by decide) (by decide) (by decide)
    (by decide)

/-- Claim C4: `WireMsg.decode` succeeds exactly on the well-formed
buffers: nonempty, first byte one of the three known tags, and length
exactly 9 for tag 0x01 and exactly 5 for tag 0x03; every other buffer
yields a decode error value (an `Except.error`, never a crash: `decode`
is a total function). -/
theorem decode_ok_iff_wellFormed (bytes : List Byte) :
    (WireMsg.decode bytes).isOk = decodeWellFormed bytes := by
  match bytes with
  | [] => rfl
  | b0 :: rest =>
    by_cases h1 : b0.val = 1
    · simp only [WireMsg.decode, decodeWellFormed, h1, if_pos]
      rcases rest with _ | ⟨x1, _ | ⟨x2, _ | ⟨x3, _ | ⟨x4, _ | ⟨x5, _ | ⟨x6, _ | ⟨x7, _ |
        ⟨x8, _ | ⟨x9, tail⟩⟩⟩⟩⟩⟩⟩⟩⟩ <;> simp [Except.isOk, Except.toBool, List.length]
    · by_cases h2 : b0.val = 2
      · simp [WireMsg.decode, decodeWellFormed, h1, h2, Except.isOk, Except.toBool]
      · by_cases h3 : b0.val = 3
        · simp only [WireMsg.decode, decodeWellFormed, h1, h2, h3, if_pos, if_neg,
            ite_false, ite_true]
          rcases rest with _ | ⟨x1, _ | ⟨x2, _ | ⟨x3, _ | ⟨x4, _ | ⟨x5, tail⟩⟩⟩⟩⟩ <;>
            simp [Except.isOk, Except.toBool, List.length]
        · simp [WireMsg.decode, decodeWellFormed, h1, h2, h3, Except.isOk, Except.toBool]

/-- Claim C8 (catch-up): if both buffers hold entries for every tick
T..T+N-1 (in whatever order they were inserted — only the lookups
matter), then N drive calls starting with cursor T advance the cursor
exactly N times, stepping each tick T, T+1, ..., T+N-1 once, in
increasing order, with none skipped or duplicated; afterwards the
cursor equals T+N. -/
theorem lockstep_catch_up {σ : Type} (C : CoreOps σ) (N : Nat) :
    ∀ (ls : Lockstep σ) (T : Nat),
      ls.isRunning = true → ls.currentTick = T →
      (∀ i, i < N → (mapGet ls.localInputBuffer (T + i)).isSome = true) →
      (∀ i, i < N → (mapGet ls.remoteInputBuffer (T + i)).isSome = true) →
      (Lockstep.driveN C ls N).1.currentTick = T + N ∧
      (Lockstep.driveN C ls N).2 = List.range' T N := by
  induction N with
  | zero =>
    intro ls T hrun hT _ _
    exact ⟨by simpa [Lockstep.driveN] using hT, rfl⟩
  | succ n ih =>
    intro ls T hrun hT hloc hrem
    have hl0 : (mapGet ls.localInputBuffer T).isSome = true := by
      simpa using hloc 0 (Nat.succ_pos n)
    have hr0 : (mapGet ls.remoteInputBuffer T).isSome = true := by
      simpa using hrem 0 (Nat.succ_pos n)
    obtain ⟨li, hli⟩ := Option.isSome_iff_exists.mp hl0
    obtain ⟨ri, hri⟩ := Option.isSome_iff_exists.mp hr0
    have hli' : mapGet ls.localInputBuffer ls.currentTick = some li := by rw [hT]; exact hli
    have hri' : mapGet ls.remoteInputBuffer ls.currentTick = some ri := by rw [hT]; exact hri
    have adv := tick_advances C ls li ri hrun hli' hri'
    have hrun' : (Lockstep.tick C ls).1.isRunning = true := adv.2.1
    have hct' : (Lockstep.tick C ls).1.currentTick = T + 1 := by rw [adv.1, hT]
    have hbufL : ∀ i, i < n →
        (mapGet (Lockstep.tick C ls).1.localInputBuffer ((T + 1) + i)).isSome = true := by
      intro i hi
      rw [adv.2.2.2.1, hT, mapGet_mapDelete_ne _ _ (by omega : (T + 1) + i ≠ T)]
      have h := hloc (i + 1) (by omega)
      rwa [show T + (i + 1) = (T + 1) + i by omega] at h
    have hbufR : ∀ i, i < n →
        (mapGet (Lockstep.tick C ls).1.remoteInputBuffer ((T + 1) + i)).isSome = true := by
      intro i hi
      rw [adv.2.2.2.2.1, hT, mapGet_mapDelete_ne _ _ (by omega : (T + 1) + i ≠ T)]
      have h := hrem (i + 1) (by omega)
      rwa [show T + (i + 1) = (T + 1) + i by omega] at h
    have ihr := ih (Lockstep.tick C ls).1 (T + 1) hrun' hct' hbufL hbufR
    have hwa : Lockstep.willAdvance ls = true := by
      simp [Lockstep.willAdvance, hrun, hli', hri']
    have hfst : (Lockstep.driveN C ls (n + 1)).1 =
        (Lockstep.driveN C (Lockstep.tick C ls).1 n).1 := rfl
    have hsnd : (Lockstep.driveN C ls (n + 1)).2 =
        (if Lockstep.willAdvance ls then [ls.currentTick] else []) ++
          (Lockstep.driveN C (Lockstep.tick C ls).1 n).2 := rfl
    constructor
    · rw [hfst, ihr.1]
      omega
    · rw [hsnd, hwa, ihr.2, hT, if_pos rfl, List.range'_succ T n 1]
      rfl

/-- A running lockstep state with inputs buffered on both sides for
ticks 0 and 1, inserted in different orders on the two sides. -/
def catchUpState : Lockstep Nat :=
  { core := 0, currentTick := 0, localSide := .Left, isRunning := true
    localInputBuffer := [(0, { axis_y := 1, buttons := 0 }), (1, { axis_y := 2, buttons := 0 })]
    remoteInputBuffer := [(1, { axis_y := 3, buttons := 0 }), (0, { axis_y := 4, buttons := 0 })] }

/-- Witness for C8 on `catchUpState` with N = 2: two drive calls step
ticks 0 and 1 in order and leave the cursor at 2. -/
theorem lockstep_catch_up_witness :
    (Lockstep.driveN natCore catchUpState 2).1.currentTick = 0 + 2 ∧
    (Lockstep.driveN natCore catchUpState 2).2 = List.range' 0 2 :=
  lockstep_catch_up natCore 2 catchUpState 0 rfl rfl (by decide) (by decide)

/-- A running lockstep state over a trivial core, whose local buffer
already holds an input for the current tick (0). -/
def overwriteState : Lockstep Unit :=
  { core := (), currentTick := 0, localSide := .Left, isRunning := true
    localInputBuffer := [(0, { axis_y := 5, buttons := 0 })]
    remoteInputBuffer := [] }

/-- The state after `onLocalInput 7 1` on `overwriteState`. -/
def overwriteResult : Lockstep Unit :=
  match Lockstep.onLocalInput overwriteState 7 1 with
  | .ok (ls', _) => ls'
  | .error _ => overwriteState

/-- Counterexample to C5 as stated: `overwriteState` already holds the
input `{axis_y := 5, buttons := 0}` for the current tick 0, yet after
`onLocalInput 7 1` the buffered entry for tick 0 is the new input — JS
`Map.set` overwrites, the existing entry is not left unchanged. -/
theorem onLocalInput_overwrites_cex :
    overwriteState.isRunning = true ∧ overwriteState.currentTick = 0 ∧
    mapGet overwriteState.localInputBuffer 0 = some { axis_y := 5, buttons := 0 } ∧
    mapGet overwriteResult.localInputBuffer 0 = some { axis_y := 7, buttons := 1 } := by
  refine ⟨rfl, rfl, rfl, ?_⟩
  decide

/-- Claim C5 (amended): while running, `onLocalInput` records the given
input for the current tick cursor value unconditionally — overwriting
any existing entry for that tick — leaves every other buffer entry, the
cursor, the remote buffer and the core untouched, and transmits exactly
one InputPair wire message carrying the given local input on its own
side and a zero placeholder on the remote side. -/
theorem onLocalInput_spec {σ : Type} (ls : Lockstep σ) (axisY : Int) (buttons : Nat)
    (hrun : ls.isRunning = true) :
    ∃ ls' msgs, Lockstep.onLocalInput ls axisY buttons = .ok (ls', msgs) ∧
      mapGet ls'.localInputBuffer ls.currentTick = some { axis_y := axisY, buttons := buttons } ∧
      (∀ t, t ≠ ls.currentTick → mapGet ls'.localInputBuffer t = mapGet ls.localInputBuffer t) ∧
      ls'.currentTick = ls.currentTick ∧
      ls'.remoteInputBuffer = ls.remoteInputBuffer ∧
      ls'.core = ls.core ∧
      ls'.isRunning = true ∧
      msgs = [WireMsg.encodeInputPair
        { tick := ls.currentTick
          a := if ls.localSide = .Left then { axis_y := axisY, buttons := buttons }
               else { axis_y := 0, buttons := 0 }
          b := if ls.localSide = .Left then { axis_y := 0, buttons := 0 }
               else { axis_y := axisY, buttons := buttons } }] := by
  refine ⟨{ ls with localInputBuffer :=
      (mapSet ls.localInputBuffer ls.currentTick { axis_y := axisY, buttons := buttons }) },
    _, ?_, ?_, ?_, rfl, rfl, rfl, hrun, rfl⟩
  · simp [Lockstep.onLocalInput, hrun]
  · exact mapGet_mapSet_self ls.localInputBuffer ls.currentTick _
  · intro t ht
    exact mapGet_mapSet_ne ls.localInputBuffer ls.currentTick _ ht

/-- Witness for C5's amended theorem at `overwriteState` with input
`(7, 1)`. -/
theorem onLocalInput_spec_witness :
    ∃ ls' msgs, Lockstep.onLocalInput overwriteState 7 1 = .ok (ls', msgs) ∧
      mapGet ls'.localInputBuffer overwriteState.currentTick =
        some { axis_y := 7, buttons := 1 } ∧
      (∀ t, t ≠ overwriteState.currentTick →
        mapGet ls'.localInputBuffer t = mapGet overwriteState.localInputBuffer t) ∧
      ls'.currentTick = overwriteState.currentTick ∧
      ls'.remoteInputBuffer = overwriteState.remoteInputBuffer ∧
      ls'.core = overwriteState.core ∧
      ls'.isRunning = true ∧
      msgs = [WireMsg.encodeInputPair
        { tick := overwriteState.currentTick
          a := if overwriteState.localSide = .Left then { axis_y := 7, buttons := 1 }
               else { axis_y := 0, buttons := 0 }
          b := if overwriteState.localSide = .Left then { axis_y := 0, buttons := 0 }
               else { axis_y := 7, buttons := 1 } }] :=
  onLocalInput_spec overwriteState 7 1 rfl

/-- Claim C6: a wire buffer whose first byte is the Snapshot tag 0x02,
delivered while running, makes the engine restore the core from the
payload bytes and re-synchronize its tick cursor to the restored core's
current tick (and emit a `snapshot_received` event). -/
theorem onNetMessage_snapshot_spec {σ : Type} (C : CoreOps σ) (ls : Lockstep σ)
    (b0 : Byte) (payload : List Byte)
    (hrun : ls.isRunning = true) (hb : b0.val = 2) :
    Lockstep.onNetMessage C ls (b0 :: payload) =
      ({ ls with core := C.restoreBytes ls.core payload
                 currentTick := C.getCurrentTick (C.restoreBytes ls.core payload) },
       [.snapshot_received (C.getCurrentTick (C.restoreBytes ls.core payload))], []) := by
  simp [Lockstep.onNetMessage, WireMsg.decode, hrun, hb]

/-- Witness for C6 on `exState` with a concrete snapshot payload. -/
theorem onNetMessage_snapshot_spec_witness :
    Lockstep.onNetMessage natCore exState (byteOfNat 2 :: [byteOfNat 3, byteOfNat 4]) =
      ({ exState with
          core := natCore.restoreBytes exState.core [byteOfNat 3, byteOfNat 4]
          currentTick := natCore.getCurrentTick
            (natCore.restoreBytes exState.core [byteOfNat 3, byteOfNat 4]) },
       [.snapshot_received (natCore.getCurrentTick
          (natCore.restoreBytes exState.core [byteOfNat 3, byteOfNat 4]))], []) :=
  onNetMessage_snapshot_spec natCore exState (byteOfNat 2) [byteOfNat 3, byteOfNat 4]
    rfl rfl

/-- Claim C7: while running, a byte sequence whose decode fails is
discarded without effect: the state (cursor, both buffers, core) is
unchanged, no event is produced and nothing is sent.  In the source the
decoder's throw is caught inside `onNetMessage`; in this embedding
`decode` is total and `onNetMessage` returns normally. -/
theorem onNetMessage_decode_error_spec {σ : Type} (C : CoreOps σ) (ls : Lockstep σ)
    (bytes : List Byte) (hrun : ls.isRunning = true)
    (herr : (WireMsg.decode bytes).isOk = false) :
    Lockstep.onNetMessage C ls bytes = (ls, [], []) := by
  rcases hd : WireMsg.decode bytes with e | msg
  · simp [Lockstep.onNetMessage, hrun, hd]
  · rw [hd] at herr
    simp [Except.isOk, Except.toBool] at herr

/-- Witness for C7: an unknown tag byte 0x09 is discarded with no state
change. -/
theorem onNetMessage_decode_error_spec_witness :
    Lockstep.onNetMessage natCore exState [byteOfNat 9] = (exState, [], []) :=
  onNetMessage_decode_error_spec natCore exState [byteOfNat 9] rfl (by decide)

/-- Claim C9: two wire buffers that decode to InputPairs with the same
tick and the same entry on the sending (remote) peer's side are
processed identically — only the remote side's field is read, keyed by
the message's tick, so the local-side placeholder never affects the
receiver's state. -/
theorem onNetMessage_input_pair_spec {σ : Type} (C : CoreOps σ) (ls : Lockstep σ)
    (bytes1 bytes2 : List Byte) (p1 p2 : InputPair)
    (h1 : WireMsg.decode bytes1 = .ok (.input_pair p1))
    (h2 : WireMsg.decode bytes2 = .ok (.input_pair p2))
    (ht : p1.tick = p2.tick)
    (hrem : (if ls.localSide = .Left then p1.b else p1.a) =
            (if ls.localSide = .Left then p2.b else p2.a)) :
    Lockstep.onNetMessage C ls bytes1 = Lockstep.onNetMessage C ls bytes2 ∧
    (ls.isRunning = true →
      Lockstep.onNetMessage C ls bytes1 =
        ({ ls with remoteInputBuffer := (mapSet ls.remoteInputBuffer p1.tick
                     (if ls.localSide = .Left then p1.b else p1.a)) }, [], [])) := by
  constructor
  · rcases hrun : ls.isRunning with _ | _
    · simp [Lockstep.onNetMessage, hrun]
    · simp [Lockstep.onNetMessage, hrun, h1, h2, ht, hrem]
  · intro hrun
    simp [Lockstep.onNetMessage, hrun, h1]

/-- An InputPair for tick 1, with a nonzero entry on the receiver's own
(left) side. -/
def pairWithJunk : InputPair :=
  { tick := 1, a := { axis_y := 9, buttons := 2 }, b := { axis_y := -1, buttons := 3 } }

/-- The same pair with the receiver's own side zeroed. -/
def pairWithZero : InputPair :=
  { tick := 1, a := { axis_y := 0, buttons := 0 }, b := { axis_y := -1, buttons := 3 } }

/-- Witness for C9: two concrete InputPair messages for tick 1 that
differ only in the receiver's own (left) side are processed
identically. -/
theorem onNetMessage_input_pair_spec_witness :
    Lockstep.onNetMessage natCore exState (WireMsg.encodeInputPair pairWithJunk) =
      Lockstep.onNetMessage natCore exState (WireMsg.encodeInputPair pairWithZero) ∧
    (exState.isRunning = true →
      Lockstep.onNetMessage natCore exState (WireMsg.encodeInputPair pairWithJunk) =
        ({ exState with remoteInputBuffer :=
             (mapSet exState.remoteInputBuffer pairWithJunk.tick
               (if exState.localSide = .Left then pairWithJunk.b else pairWithJunk.a)) },
         [], [])) :=
  onNetMessage_input_pair_spec natCore exState
    (WireMsg.encodeInputPair pairWithJunk) (WireMsg.encodeInputPair pairWithZero)
    pairWithJunk pairWithZero (by rfl) (by rfl) rfl (by decide)

/-- Claim C10: any byte sequence delivered while the engine is not
running has no effect at all: the state (core, cursor, both buffers) is
returned unchanged, no event is produced, and nothing is sent — a Ping
gets no Pong and a Snapshot is not restored. -/
theorem onNetMessage_not_running_spec {σ : Type} (C : CoreOps σ) (ls : Lockstep σ)
    (bytes : List Byte) (h : ls.isRunning = false) :
    Lockstep.onNetMessage C ls bytes = (ls, [], []) := by
  simp [Lockstep.onNetMessage, h]

/-- `exState` with the engine stopped. -/
def stoppedState : Lockstep Nat :=
  { exState with isRunning := false }

/-- Witness for C10: a well-formed Ping delivered to a stopped engine
does nothing and sends nothing. -/
theorem onNetMessage_not_running_spec_witness :
    Lockstep.onNetMessage natCore stoppedState (WireMsg.encodePing 42) =
      (stoppedState, [], []) :=
  onNetMessage_not_running_spec natCore stoppedState (WireMsg.encodePing 42) rfl

/-- Modelled from the spec: Q16.16 fixed-point values (the simulation
engine is the Rust core crate, which is not under src; only its WASM
adapter and TypeScript type declarations are).  One unit is 65536;
multiplication and division widen, scale and truncate toward zero. -/
abbrev Fx := Int

/-- Modelled from the spec: fixed-point multiply with truncation toward
zero. -/
def fxMul (a b : Fx) : Fx := Int.tdiv (a * b) 65536

/-- Modelled from the spec: fixed-point divide, dividend widened by 16
bits before integer division. -/
def fxDiv (a b : Fx) : Fx := Int.tdiv (a * 65536) b

/-- Modelled from the spec: clamp a value into a closed interval. -/
def fxClamp (v lo hi : Fx) : Fx := if v < lo then lo else if hi < v then hi else v

/-- Modelled from the spec: the immutable per-match configuration. -/
structure Config where
  paddle_half_h : Fx
  paddle_speed : Fx
  ball_speed : Fx
  ball_speed_up : Fx
  wall_thickness : Fx
  paddle_x : Fx
  max_score : Nat
  seed : Nat
  tick_hz : Nat
deriving DecidableEq

/-- Modelled from the spec: match status. -/
inductive GStatus where
  | Lobby
  | Countdown (ticksRemaining : Nat)
  | Playing
  | Scored (scorer : Side) (ticksRemaining : Nat)
  | GameOver (winner : Side)
deriving DecidableEq

/-- Modelled from the spec: a paddle's vertical center and velocity. -/
structure Paddle where
  y : Fx
  vy : Fx
deriving DecidableEq

/-- Modelled from the spec: ball position and velocity. -/
structure Ball where
  x : Fx
  y : Fx
  vx : Fx
  vy : Fx
deriving DecidableEq

/-- Modelled from the spec: the authoritative game aggregate.  The
playfield is the unit square [0, 65536] × [0, 65536] in Q16.16. -/
structure Game where
  config : Config
  tick : Nat
  status : GStatus
  leftPaddle : Paddle
  rightPaddle : Paddle
  ball : Ball
  scoreL : Nat
  scoreR : Nat
  rng : Nat
deriving DecidableEq

/-- Modelled from the spec: the spec fixes only a 64-bit PRNG advanced
inside `step`; a 64-bit LCG stands in for the unspecified algorithm. -/
def rngNext (s : Nat) : Nat :=
  (6364136223846793005 * s + 1442695040888963407) % (2 ^ 64)

/-- Modelled from the spec: scoring event emitted by `step` on the tick
the ball crosses a goal line. -/
inductive GameEvent where
  | Scored (scorer : Side) (scoreL scoreR : Nat)
deriving DecidableEq

/-- Modelled from the spec: `Game::new(Config)` — Lobby status, centred
paddles and ball, zero scores, PRNG state seeded from the config. -/
def Game.new (cfg : Config) : Game :=
  { config := cfg, tick := 0, status := .Lobby
    leftPaddle := { y := 32768, vy := 0 }, rightPaddle := { y := 32768, vy := 0 }
    ball := { x := 32768, y := 32768, vx := 0, vy := 0 }
    scoreL := 0, scoreR := 0, rng := cfg.seed }

/-- Modelled from the spec: move a paddle by `axis_y / 127 *
paddle_speed`, clamped so its edge cannot pass the walls. -/
def movePaddle (cfg : Config) (p : Paddle) (axis : Int) : Paddle :=
  let dy := Int.tdiv (axis * cfg.paddle_speed) 127
  let lo := cfg.wall_thickness + cfg.paddle_half_h
  let hi := 65536 - cfg.wall_thickness - cfg.paddle_half_h
  { y := fxClamp (p.y + dy) lo hi, vy := dy }

/-- Modelled from the spec: serve the ball from the centre with a fixed
initial speed and a direction derived from the PRNG. -/
def serveBall (cfg : Config) (rng : Nat) : Ball × Nat :=
  let rng' := rngNext rng
  let dirX : Int := if rng' % 2 = 0 then 1 else -1
  let dirY : Int := if (rng' / 2) % 2 = 0 then 1 else -1
  ({ x := 32768, y := 32768, vx := dirX * cfg.ball_speed,
     vy := dirY * Int.tdiv cfg.ball_speed 2 }, rng')

/-- Modelled from the spec: one Playing-state physics tick — paddles
move, the ball advances, reflects off walls (closed-interval tests,
touching counts) and off paddles (within the half-height band at the
paddle's horizontal offset, X velocity negated and scaled by
`ball_speed_up`), and a goal-line crossing scores. -/
def stepPhysics (g : Game) (pair : InputPair) : Game × Option GameEvent :=
  let cfg := g.config
  let lp := movePaddle cfg g.leftPaddle pair.a.axis_y
  let rp := movePaddle cfg g.rightPaddle pair.b.axis_y
  let bx := g.ball.x + g.ball.vx
  let by' := g.ball.y + g.ball.vy
  let vy1 := if by' ≤ cfg.wall_thickness ∨ 65536 - cfg.wall_thickness ≤ by'
    then -g.ball.vy else g.ball.vy
  let y1 := fxClamp by' cfg.wall_thickness (65536 - cfg.wall_thickness)
  let hitLeft := bx ≤ cfg.paddle_x ∧ g.ball.vx < 0 ∧
    lp.y - cfg.paddle_half_h ≤ y1 ∧ y1 ≤ lp.y + cfg.paddle_half_h
  let hitRight := 65536 - cfg.paddle_x ≤ bx ∧ 0 < g.ball.vx ∧
    rp.y - cfg.paddle_half_h ≤ y1 ∧ y1 ≤ rp.y + cfg.paddle_half_h
  let vx1 := if hitLeft ∨ hitRight then fxMul (-g.ball.vx) cfg.ball_speed_up else g.ball.vx
  let g' := { g with leftPaddle := lp, rightPaddle := rp
                     ball := { x := bx, y := y1, vx := vx1, vy := vy1 } }
  if bx ≤ 0 ∧ ¬hitLeft then
    let sR := g.scoreR + 1
    ({ g' with scoreR := sR
               status := if cfg.max_score ≤ sR then .GameOver .Right else .Scored .Right 60 },
     some (.Scored .Right g.scoreL sR))
  else if 65536 ≤ bx ∧ ¬hitRight then
    let sL := g.scoreL + 1
    ({ g' with scoreL := sL
               status := if cfg.max_score ≤ sL then .GameOver .Left else .Scored .Left 60 },
     some (.Scored .Left sL g.scoreR))
  else
    (g', none)

/-- Modelled from the spec: the per-tick transition function.  Lobby
waits for both ready bits; Countdown counts 180 ticks down to the
serve; Playing runs the physics; Scored pauses, then either ends the
match (score reached `max_score`) or serves again; GameOver performs no
physics.  The tick counter advances on every call. -/
def Game.step (g : Game) (pair : InputPair) : Game × Option GameEvent :=
  let g1 := { g with tick := g.tick + 1 }
  match g.status with
  | .Lobby =>
    if pair.a.buttons % 2 = 1 ∧ pair.b.buttons % 2 = 1 then
      ({ g1 with status := .Countdown 180 }, none)
    else (g1, none)
  | .Countdown n =>
    if n ≤ 1 then
      let served := serveBall g.config g.rng
      ({ g1 with status := .Playing, ball := served.1, rng := served.2 }, none)
    else ({ g1 with status := .Countdown (n - 1) }, none)
  | .Playing =>
    let r := stepPhysics g1 pair
    (r.1, r.2)
  | .Scored scorer n =>
    if n ≤ 1 then
      if g.config.max_score ≤ g.scoreL then ({ g1 with status := .GameOver .Left }, none)
      else if g.config.max_score ≤ g.scoreR then ({ g1 with status := .GameOver .Right }, none)
      else ({ g1 with status := .Countdown 180 }, none)
    else ({ g1 with status := .Scored scorer (n - 1) }, none)
  | .GameOver _ => (g1, none)

/-- Modelled from the spec: the read-only view projection. -/
structure GView where
  tick : Nat
  status : GStatus
  leftY : Fx
  rightY : Fx
  ballX : Fx
  ballY : Fx
  scoreL : Nat
  scoreR : Nat
deriving DecidableEq

/-- Modelled from the spec: `view()` projects presentation state. -/
def Game.view (g : Game) : GView :=
  { tick := g.tick, status := g.status, leftY := g.leftPaddle.y, rightY := g.rightPaddle.y
    ballX := g.ball.x, ballY := g.ball.y, scoreL := g.scoreL, scoreR := g.scoreR }

/-- Modelled from the spec: `snapshot()` is a complete serializable
copy of the aggregate (PRNG state and in-progress timers included),
modelled as the aggregate itself. -/
def Game.snapshot (g : Game) : Game := g

/-- Run a `Game` through a scripted sequence of `InputPair`s. -/
def runScript (g : Game) (script : List InputPair) : Game :=
  script.foldl (fun s p => (Game.step s p).1) g

/-- Claim C2 (spec-modelled): for any fixed `Config` (seed included)
and scripted `InputPair` sequence, two independently constructed `Game`
instances fed the identical sequence have identical `view()` and
`snapshot()` outputs at every tick (every prefix of the script).  The
modelled transition is a pure function of state and input, so all
observable output is determined by the config and the script. -/
theorem game_determinism (cfg : Config) (script : List InputPair) (g1 g2 : Game)
    (h1 : g1 = Game.new cfg) (h2 : g2 = Game.new cfg) (n : Nat) :
    Game.view (runScript g1 (script.take n)) = Game.view (runScript g2 (script.take n)) ∧
    Game.snapshot (runScript g1 (script.take n)) =
      Game.snapshot (runScript g2 (script.take n)) := by
  subst h1
  subst h2
  exact ⟨rfl, rfl⟩

/-- A concrete configuration for the determinism witness. -/
def cfg0 : Config :=
  { paddle_half_h := 6554, paddle_speed := 1200, ball_speed := 800, ball_speed_up := 68157
    wall_thickness := 1311, paddle_x := 3277, max_score := 11, seed := 0xC0FFEE, tick_hz := 60 }

/-- A short concrete input script: both sides press ready, then move. -/
def script0 : List InputPair :=
  [ { tick := 0, a := { axis_y := 0, buttons := 1 }, b := { axis_y := 0, buttons := 1 } },
    { tick := 1, a := { axis_y := 64, buttons := 0 }, b := { axis_y := -64, buttons := 0 } } ]

/-- Witness for C2 at a concrete config and script. -/
theorem game_determinism_witness :
    Game.view (runScript (Game.new cfg0) (script0.take 2)) =
      Game.view (runScript (Game.new cfg0) (script0.take 2)) ∧
    Game.snapshot (runScript (Game.new cfg0) (script0.take 2)) =
      Game.snapshot (runScript (Game.new cfg0) (script0.take 2)) :=
  game_determinism cfg0 script0 (Game.new cfg0) (Game.new cfg0) rfl rfl 2

end Pong
